import Mathlib

/-!
Verification of the model registry and versioning subsystem of the Gati
repository (`src/ml/versioning.py`, class `GATIModelVersioning`).

The Python module keeps an in-memory `ModelRegistry` (dataclass) holding,
per model name, an ordered list of `ModelVersion` records plus a
production pointer map, and persists it as a single JSON document.  The
shallow embedding below mirrors those dataclasses and methods:

* Python dicts (insertion ordered, unique keys) become association lists
  with `dictGet` / `dictSet`;
* semantic version strings `"M.m.p"`, which the source parses with
  `map(int, latest.split('.'))` and re-renders with f-strings, are
  represented by the parsed integer triple `Version`;
* `float` metric values are opaque to the registry (never interpreted,
  only stored, subtracted and compared in `compare_versions`); they are
  modelled as `Int`;
* timestamps produced by `datetime.now().isoformat()` are external
  inputs, threaded into each operation as a `String` argument;
* the artifact store (`joblib.dump` / `joblib.load` / `shutil.rmtree`)
  is modelled as always succeeding, matching the happy path of the
  source, whose try/except blocks only log failures;
* methods that `raise ValueError(...)` return `Except VErr`; because a
  raising method may already have mutated `self.registry`, such methods
  return the post-state together with the outcome.
-/

namespace GatiVersioning

/-- A parsed semantic version `MAJOR.MINOR.PATCH`.  The source stores the
string form and parses it with `major, minor, patch = map(int, latest.split('.'))`. -/
structure Version where
  major : Nat
  minor : Nat
  patch : Nat
deriving DecidableEq, Repr

/-- Strict lexicographic triple comparison of versions (the allocator's
ordering from the spec; the source never compares versions explicitly,
it only appends allocator output). -/
def vltb (a b : Version) : Bool :=
  a.major < b.major ||
    (a.major == b.major &&
      (a.minor < b.minor || (a.minor == b.minor && a.patch < b.patch)))

/-- Errors corresponding to the `ValueError`s the source raises, plus
`registryCorrupt`, the spec's name for a malformed backing document
(the source never raises it: `_load_registry` catches every exception),
and `indexError` for Python's `list[-1]` on an empty list. -/
inductive VErr where
  | modelNotFound (name : String)
  | versionNotFound (ver : Version)
  | bothVersionsNotFound
  | registryCorrupt
  | indexError
deriving DecidableEq, Repr

/-- Embedding of the `ModelVersion` dataclass: one record per registered
artifact.  `metrics` is the `Dict[str, float]` of performance metrics
(values opaque to the registry, modelled as `Int`). -/
structure ModelVersion where
  version : Version
  model_name : String
  model_type : String
  created_at : String
  created_by : String
  description : String
  metrics : List (String × Int)
  training_data_hash : String
  training_samples : Int
  feature_count : Int
  training_duration_seconds : Int
  model_file : String
  metadata_file : String
  status : String
  is_production : Bool
  tags : List String
deriving DecidableEq, Repr

/-- Lookup in a Python dict modelled as an association list (first — and
only — binding of the key). -/
def dictGet {α : Type} (k : String) : List (String × α) → Option α
  | [] => none
  | p :: t => if p.1 = k then some p.2 else dictGet k t

/-- Assignment `d[k] = v` on a Python dict: replaces the binding in place
if the key exists, otherwise appends it (insertion order preserved). -/
def dictSet {α : Type} (k : String) (v : α) : List (String × α) → List (String × α)
  | [] => [(k, v)]
  | p :: t => if p.1 = k then (k, v) :: t else p :: dictSet k v t

/-- Embedding of the `ModelRegistry` dataclass: `models` maps a model
name to its ordered list of version records, `current_production` maps a
model name to the promoted version. -/
structure ModelRegistry where
  models : List (String × List ModelVersion)
  current_production : List (String × Version)
  last_updated : String
deriving DecidableEq, Repr

/-- `ModelRegistry()` with all fields defaulted. -/
def emptyRegistry : ModelRegistry := ⟨[], [], ""⟩

/-- The model line currently stored for `name` (empty when the key is
absent); a reading convenience used by the theorems below. -/
def lineOf (reg : ModelRegistry) (name : String) : List ModelVersion :=
  (dictGet name reg.models).getD []

/-- Embedding of `_get_next_version`: `1.0.0` when the model has no line
or an empty line, otherwise a bump of the latest record's version, where
`bump == 'major'` and `bump == 'minor'` are tested explicitly and every
other string falls into the `patch` branch (the source's `else`). -/
def bumpVersion (v : Version) (bump : String) : Version :=
  if bump = "major" then ⟨v.major + 1, 0, 0⟩
  else if bump = "minor" then ⟨v.major, v.minor + 1, 0⟩
  else ⟨v.major, v.minor, v.patch + 1⟩

def get_next_version (reg : ModelRegistry) (model_name : String) (bump : String) : Version :=
  match dictGet model_name reg.models with
  | none => ⟨1, 0, 0⟩
  | some line =>
    match line.getLast? with
    | none => ⟨1, 0, 0⟩
    | some latest => bumpVersion latest.version bump

/-- The caller-supplied arguments of `register_model` (the trained model
object itself is opaque and only forwarded to the artifact store; the
training-data hash is the `_compute_data_hash` output or `""`). -/
structure RegisterInput where
  model_name : String
  model_type : String
  description : String
  metrics : List (String × Int)
  training_data_hash : String
  training_samples : Int
  feature_count : Int
  training_duration : Int
  created_by : String
  created_at : String
  bump : String
  tags : List String
deriving DecidableEq, Repr

/-- Embedding of `register_model`: allocates the next version, builds the
record (`status='active'`, `is_production=False`, `model_file='model.joblib'`,
`metadata_file='metadata.json'`), appends it to the model's line and saves
the registry (which stamps `last_updated`).  Artifact and sidecar-metadata
writes touch only the filesystem, not the registry document. -/
def register_model (reg : ModelRegistry) (inp : RegisterInput) :
    ModelRegistry × ModelVersion :=
  let version_str := get_next_version reg inp.model_name inp.bump
  let rec_ : ModelVersion :=
    { version := version_str
      model_name := inp.model_name
      model_type := inp.model_type
      created_at := inp.created_at
      created_by := inp.created_by
      description := inp.description
      metrics := inp.metrics
      training_data_hash := inp.training_data_hash
      training_samples := inp.training_samples
      feature_count := inp.feature_count
      training_duration_seconds := inp.training_duration
      model_file := "model.joblib"
      metadata_file := "metadata.json"
      status := "active"
      is_production := false
      tags := inp.tags }
  let line := (dictGet inp.model_name reg.models).getD []
  ({ reg with
      models := dictSet inp.model_name (line ++ [rec_]) reg.models
      last_updated := inp.created_at },
   rec_)

/-- The flag pass of `promote_to_production`'s loop: sets
`is_production` on every record of the line — True on a version match,
False otherwise. -/
def set_production_flags (line : List ModelVersion) (version : Version) :
    List ModelVersion :=
  line.map fun v =>
    if v.version = version then { v with is_production := true }
    else { v with is_production := false }

/-- Embedding of `promote_to_production`.  The source's loop sets
`is_production` on every record of the line before checking `found`; so
on a `VersionNotFound` failure the flags have already been cleared while
the production pointer and the saved `last_updated` are untouched.  On a
missing model it raises before any mutation. -/
def promote_to_production (reg : ModelRegistry) (model_name : String)
    (version : Version) (now : String) : ModelRegistry × Except VErr Unit :=
  match dictGet model_name reg.models with
  | none => (reg, .error (.modelNotFound model_name))
  | some line =>
    let line2 := set_production_flags line version
    let found := line.any fun v => v.version = version
    if found then
      ({ reg with
          models := dictSet model_name line2 reg.models
          current_production := dictSet model_name version reg.current_production
          last_updated := now },
       .ok ())
    else
      ({ reg with models := dictSet model_name line2 reg.models },
       .error (.versionNotFound version))

/-- Embedding of `load_model`: resolves the version (explicit argument,
else production pointer, else the line's last record — Python's `[-1]`,
an `IndexError` on an empty line), then takes the first record of the
line with that version.  `joblib.load` of the artifact is abstracted; the
result is the resolved `ModelVersion` record. -/
def load_model (reg : ModelRegistry) (model_name : String)
    (version? : Option Version) : Except VErr ModelVersion :=
  match dictGet model_name reg.models with
  | none => .error (.modelNotFound model_name)
  | some line =>
    let resolved : Except VErr Version :=
      match version? with
      | some v => .ok v
      | none =>
        match dictGet model_name reg.current_production with
        | some v => .ok v
        | none =>
          match line.getLast? with
          | some r => .ok r.version
          | none => .error .indexError
    match resolved with
    | .error e => .error e
    | .ok v =>
      match line.find? (fun r => r.version = v) with
      | some info => .ok info
      | none => .error (.versionNotFound v)

/-- Embedding of `get_production_models`: iterates the production pointer
map, loading each pointed-to version; a model whose load fails is skipped
(the exception is caught and logged), and a model with no pointer entry
simply never appears. -/
def get_production_models (reg : ModelRegistry) : List (String × ModelVersion) :=
  reg.current_production.filterMap fun p =>
    match load_model reg p.1 (some p.2) with
    | .ok info => some (p.1, info)
    | .error _ => none

/-- One entry of the `version_history` list built by `export_lineage`:
exactly the nine per-record fields the source copies into the report
(`model_type`, `feature_count`, `training_duration_seconds`,
`model_file`, `metadata_file` and `tags` are not among them). -/
structure LineageEntry where
  version : Version
  created_at : String
  created_by : String
  description : String
  status : String
  is_production : Bool
  training_data_hash : String
  training_samples : Int
  metrics : List (String × Int)
deriving DecidableEq, Repr

/-- The projection of one `ModelVersion` performed inside
`export_lineage`'s loop. -/
def lineage_entry (v : ModelVersion) : LineageEntry :=
  { version := v.version
    created_at := v.created_at
    created_by := v.created_by
    description := v.description
    status := v.status
    is_production := v.is_production
    training_data_hash := v.training_data_hash
    training_samples := v.training_samples
    metrics := v.metrics }

/-- The lineage document `export_lineage` serializes to `output_path`. -/
structure LineageReport where
  model_name : String
  generated_at : String
  total_versions : Nat
  current_production : Option Version
  version_history : List LineageEntry
deriving DecidableEq, Repr

/-- Embedding of `export_lineage`: fails when the model has no line,
otherwise builds the report from the line in order.  Writing the JSON
file is abstracted; `now` is the `datetime.now().isoformat()` stamp. -/
def export_lineage (reg : ModelRegistry) (model_name : String)
    (now : String) : Except VErr LineageReport :=
  match dictGet model_name reg.models with
  | none => .error (.modelNotFound model_name)
  | some line =>
    .ok { model_name := model_name
          generated_at := now
          total_versions := line.length
          current_production := dictGet model_name reg.current_production
          version_history := line.map lineage_entry }

/-- Embedding of `cleanup_old_versions`.  Mirrors the source line by line:
an absent model returns `0` with no mutation and no save; otherwise
`to_keep = versions[-keep_last_n:]` (Python slicing: `keep_last_n == 0`
keeps everything), `to_remove` filters by record (in)equality, the
production version's record is excluded when `keep_production` and a
pointer exists, and each removal erases the first equal record.  The
per-record `shutil.rmtree` is modelled as succeeding, matching the happy
path (failures are only logged and skipped). -/
def cleanup_old_versions (reg : ModelRegistry) (model_name : String)
    (keep_last_n : Nat) (keep_production : Bool) (now : String) :
    ModelRegistry × Nat :=
  match dictGet model_name reg.models with
  | none => (reg, 0)
  | some versions =>
    let production_version := dictGet model_name reg.current_production
    let to_keep :=
      if keep_last_n = 0 then versions
      else versions.drop (versions.length - keep_last_n)
    let to_remove := versions.filter fun v => !(to_keep.contains v)
    let to_remove :=
      match keep_production, production_version with
      | true, some pv => to_remove.filter fun (v : ModelVersion) => v.version ≠ pv
      | _, _ => to_remove
    let line2 := to_remove.foldl (fun l v => l.erase v) versions
    ({ reg with
        models := dictSet model_name line2 reg.models
        last_updated := now },
     to_remove.length)

/-- One metric's row in `compare_versions`' output. -/
structure MetricComparison where
  v1 : Int
  v2 : Int
  diff : Int
  improved : Bool
deriving DecidableEq, Repr

/-- The comparison dictionary `compare_versions` returns. -/
structure VersionComparison where
  version1 : Version
  version2 : Version
  created_at_diff : Int
  metrics_comparison : List (String × MetricComparison)
  training_samples_diff : Int
  feature_count_diff : Int
deriving DecidableEq, Repr

/-- `dict.get(metric, 0)` over a metrics map. -/
def metricGet (m : List (String × Int)) (k : String) : Int :=
  (dictGet k m).getD 0

/-- Embedding of `compare_versions`.  The single loop binds a record to
slot 1 when its version equals `version1`, `elif` to slot 2 when it
equals `version2`; an unbound slot raises.  `daysBetween a b` stands for
`(datetime.fromisoformat(b) - datetime.fromisoformat(a)).days`, opaque
date arithmetic the registry does not interpret.  The set union over
metric keys is iterated here as first-occurrence order of the
concatenated key lists (Python's `set` order is unspecified). -/
def compare_versions (daysBetween : String → String → Int)
    (reg : ModelRegistry) (model_name : String)
    (version1 version2 : Version) : Except VErr VersionComparison :=
  let pair := ((dictGet model_name reg.models).getD []).foldl
    (fun (p : Option ModelVersion × Option ModelVersion) v =>
      if v.version = version1 then (some v, p.2)
      else if v.version = version2 then (p.1, some v)
      else p)
    (none, none)
  match pair with
  | (some a, some b) =>
    .ok { version1 := version1
          version2 := version2
          created_at_diff := daysBetween a.created_at b.created_at
          metrics_comparison :=
            ((a.metrics.map Prod.fst) ++ (b.metrics.map Prod.fst)).dedup.map
              fun k =>
                (k, { v1 := metricGet a.metrics k
                      v2 := metricGet b.metrics k
                      diff := metricGet b.metrics k - metricGet a.metrics k
                      improved := decide (metricGet a.metrics k < metricGet b.metrics k) })
          training_samples_diff := b.training_samples - a.training_samples
          feature_count_diff := b.feature_count - a.feature_count }
  | _ => .error .bothVersionsNotFound

/-!
### Registry-mutating operation sequences

The registry-level invariants (at-most-one production record, strictly
increasing versions) quantify over every sequence of `register_model` /
`promote_to_production` calls starting from the empty registry that an
initial `GATIModelVersioning(...)` with no backing file holds.
-/

/-- One mutating call against the registry. -/
inductive RegOp where
  | register (inp : RegisterInput)
  | promote (model_name : String) (version : Version) (now : String)
deriving Repr

/-- State transition of one call; a promote that raises still leaves its
partial mutation behind (see `promote_to_production`). -/
def applyOp (reg : ModelRegistry) : RegOp → ModelRegistry
  | .register inp => (register_model reg inp).1
  | .promote name v now => (promote_to_production reg name v now).1

/-- The registry after running a call sequence from the empty registry. -/
def runOps (ops : List RegOp) : ModelRegistry :=
  ops.foldl applyOp emptyRegistry

/-!
### Persistence model

`_save_registry` and `_load_registry` act on the single JSON document at
`base_dir / "registry.json"`.  The file's observable states are: absent,
present-but-unparseable (which includes the zero-length file left by
`open(path, 'w')` before `json.dump` has run), or a well-formed dump of
a registry document.  `_save_registry` is decomposed into the two
filesystem effects Python performs in order: `open(path, 'w')` truncates
the document, then `json.dump` writes the serialized registry.  A
temp-file write and an atomic rename are included as expressible effects
so the spec's commit discipline can be stated against the source's. -/

/-- Observable content of the registry document (or of the temp file). -/
inductive RegistryFileContent where
  | absent
  | malformed
  | doc (registry : ModelRegistry)
deriving DecidableEq, Repr

/-- The two paths a commit could touch: the registry document and a
sibling temporary file. -/
structure FsState where
  registry_doc : RegistryFileContent
  temp_doc : RegistryFileContent
deriving DecidableEq, Repr

/-- Elementary filesystem effects of a commit. -/
inductive FsOp where
  | openTruncateRegistry
  | writeRegistry (d : ModelRegistry)
  | writeTemp (d : ModelRegistry)
  | renameTempToRegistry
deriving DecidableEq, Repr

/-- Effect semantics: truncation leaves an unparseable empty document;
a rename atomically replaces the registry document with the temp file. -/
def applyFsOp (st : FsState) : FsOp → FsState
  | .openTruncateRegistry => { st with registry_doc := .malformed }
  | .writeRegistry d => { st with registry_doc := .doc d }
  | .writeTemp d => { st with temp_doc := .doc d }
  | .renameTempToRegistry =>
      { registry_doc := st.temp_doc, temp_doc := .absent }

def applyFsOps (st : FsState) (ops : List FsOp) : FsState :=
  ops.foldl applyFsOp st

/-- The effect trace of `_save_registry`: stamp `last_updated`, then
`open(self.registry_file, 'w')` followed by `json.dump(...)` — a direct
in-place rewrite of the document. -/
def save_registry_ops (reg : ModelRegistry) (now : String) : List FsOp :=
  [.openTruncateRegistry, .writeRegistry { reg with last_updated := now }]

/-- Modelled from the spec: the commit discipline §4.2 prescribes
("write-to-temp-then-atomic-rename"), for comparison with the source's
`save_registry_ops`. -/
def save_registry_ops_spec (reg : ModelRegistry) (now : String) : List FsOp :=
  [.writeTemp { reg with last_updated := now }, .renameTempToRegistry]

/-- Embedding of `_load_registry`: a missing document yields a fresh
`ModelRegistry()`; an unparseable one is caught (`except Exception`),
logged as a warning and likewise yields a fresh `ModelRegistry()`; a
well-formed document is reconstructed field by field.  Every branch
returns `.ok`: the source surfaces no error. -/
def load_registry (f : RegistryFileContent) : Except VErr ModelRegistry :=
  match f with
  | .absent => .ok emptyRegistry
  | .malformed => .ok emptyRegistry
  | .doc reg => .ok reg

/-!
### Concrete inputs used by the end-to-end scenarios and witnesses
-/

/-- A trainer call registering one more `"risk_scorer"` artifact with
bump kind `b` at time `t` (the end-to-end scenario of the spec). -/
def demoInput (b : String) (t : String) : RegisterInput :=
  { model_name := "risk_scorer"
    model_type := "classification"
    description := "risk scoring model"
    metrics := [("accuracy", 85)]
    training_data_hash := ""
    training_samples := 100
    feature_count := 5
    training_duration := 1
    created_by := "developer"
    created_at := t
    bump := b
    tags := [] }

/-- Register `1.0.0`, `1.0.1`, `1.0.2`, then promote `1.0.1`. -/
def demoOps : List RegOp :=
  [.register (demoInput "patch" "t1"),
   .register (demoInput "patch" "t2"),
   .register (demoInput "patch" "t3"),
   .promote "risk_scorer" ⟨1, 0, 1⟩ "t4"]

/-- Register `1.0.0` and `1.0.1`, then promote the older `1.0.0`, so a
cleanup keeping only the most recent record finds its one out-of-window
record protected by the production pointer. -/
def protectOps : List RegOp :=
  [.register (demoInput "patch" "t1"),
   .register (demoInput "patch" "t2"),
   .promote "risk_scorer" ⟨1, 0, 0⟩ "t3"]

/-- The `"risk_scorer"` line after `demoOps`. -/
def demoLine : List ModelVersion := lineOf (runOps demoOps) "risk_scorer"

/-- The promoted `1.0.1` record inside `demoLine`. -/
def demoProdRecord : ModelVersion :=
  { version := ⟨1, 0, 1⟩
    model_name := "risk_scorer"
    model_type := "classification"
    created_at := "t2"
    created_by := "developer"
    description := "risk scoring model"
    metrics := [("accuracy", 85)]
    training_data_hash := ""
    training_samples := 100
    feature_count := 5
    training_duration_seconds := 1
    model_file := "model.joblib"
    metadata_file := "metadata.json"
    status := "active"
    is_production := true
    tags := [] }

/-- A one-record version line whose record carries `model_type := mt`
(used to show which record fields survive the lineage export). -/
def oneRecord (mt : String) : ModelVersion :=
  { version := ⟨1, 0, 0⟩
    model_name := "m"
    model_type := mt
    created_at := "t1"
    created_by := "developer"
    description := "d"
    metrics := [("accuracy", 85)]
    training_data_hash := ""
    training_samples := 100
    feature_count := 5
    training_duration_seconds := 1
    model_file := "model.joblib"
    metadata_file := "metadata.json"
    status := "active"
    is_production := false
    tags := [] }

/-- A registry holding exactly one model `"m"` with the one record of
`oneRecord mt` and no production pointer. -/
def oneModelRegistry (mt : String) : ModelRegistry :=
  ⟨[("m", [oneRecord mt])], [], "t1"⟩

/-!
### Association-list and version-order lemmas
-/

theorem dictGet_dictSet_self {α : Type} (k : String) (v : α)
    (d : List (String × α)) : dictGet k (dictSet k v d) = some v := by
  induction d with
  | nil => simp [dictGet, dictSet]
  | cons p t ih =>
    by_cases h : p.1 = k
    · simp [dictSet, h, dictGet]
    · simp [dictSet, h, dictGet, ih]

theorem dictGet_dictSet_ne {α : Type} {k q : String} (hne : q ≠ k) (v : α)
    (d : List (String × α)) : dictGet q (dictSet k v d) = dictGet q d := by
  induction d with
  | nil => simp [dictGet, dictSet, Ne.symm hne]
  | cons p t ih =>
    by_cases h : p.1 = k
    · simp [dictSet, h, dictGet, Ne.symm hne]
    · simp [dictSet, h, dictGet, ih]

theorem vltb_irrefl (v : Version) : vltb v v = false := by
  simp [vltb]

theorem vltb_trans {a b c : Version} (h1 : vltb a b = true)
    (h2 : vltb b c = true) : vltb a c = true := by
  simp [vltb] at h1 h2 ⊢
  omega

theorem vltb_ne {a b : Version} (h : vltb a b = true) : a ≠ b := by
  intro he
  subst he
  rw [vltb_irrefl] at h
  exact Bool.false_ne_true h

theorem vltb_bump (v : Version) (b : String) :
    vltb v (bumpVersion v b) = true := by
  unfold bumpVersion
  split_ifs <;> simp [vltb]

/-- The ordering invariant of a model line: records appear in strictly
increasing version order. -/
def VersionsSorted (line : List ModelVersion) : Prop :=
  line.Pairwise fun a b => vltb a.version b.version = true

theorem pairwise_getLast {α : Type} {R : α → α → Prop} :
    ∀ {l : List α} {a : α}, l.Pairwise R → l.getLast? = some a →
      ∀ x ∈ l, x = a ∨ R x a := by
  intro l
  induction l with
  | nil => intro a _ hl x hx; simp at hx
  | cons b t ih =>
    intro a hp hl x hx
    cases t with
    | nil =>
      simp at hl hx
      subst hl hx
      exact Or.inl rfl
    | cons c u =>
      have hl2 : (c :: u).getLast? = some a := by
        simpa [List.getLast?] using hl
      rcases List.pairwise_cons.mp hp with ⟨hb, hpt⟩
      rcases List.mem_cons.mp hx with rfl | hx2
      · exact Or.inr (hb a (List.mem_of_mem_getLast? hl2))
      · exact ih hpt hl2 x hx2

theorem countP_version_le_one {line : List ModelVersion}
    (h : VersionsSorted line) (ver : Version) :
    line.countP (fun r => decide (r.version = ver)) ≤ 1 := by
  induction line with
  | nil => simp
  | cons a t ih =>
    rcases List.pairwise_cons.mp h with ⟨ha, ht⟩
    rw [List.countP_cons]
    by_cases hv : a.version = ver
    · have hz : t.countP (fun r => decide (r.version = ver)) = 0 := by
        rw [List.countP_eq_zero]
        intro r hr
        have hlt := ha r hr
        have hne := vltb_ne hlt
        simp only [decide_eq_true_eq]
        intro he
        exact hne (by rw [hv, ← he])
      simp [hz, hv]
    · simp only [hv, decide_eq_false hv]
      simpa using ih ht

/-!
### Facts about the promotion flag pass
-/

theorem version_flag (ver : Version) (x : ModelVersion) :
    ((if x.version = ver then { x with is_production := true }
      else { x with is_production := false }) : ModelVersion).version =
      x.version := by
  split <;> rfl

theorem map_version_set_production_flags (line : List ModelVersion)
    (ver : Version) :
    (set_production_flags line ver).map (fun r => r.version) =
      line.map (fun r => r.version) := by
  induction line with
  | nil => rfl
  | cons a t ih =>
    simp only [set_production_flags, List.map_cons] at ih ⊢
    rw [ih, version_flag]

theorem sorted_set_production_flags {line : List ModelVersion}
    (h : VersionsSorted line) (ver : Version) :
    VersionsSorted (set_production_flags line ver) := by
  unfold VersionsSorted set_production_flags
  rw [List.pairwise_map]
  refine h.imp ?_
  intro a b hab
  rw [version_flag, version_flag]
  exact hab

theorem countP_set_production_flags (line : List ModelVersion)
    (ver : Version) :
    (set_production_flags line ver).countP (fun r => r.is_production) =
      line.countP (fun r => decide (r.version = ver)) := by
  induction line with
  | nil => rfl
  | cons a t ih =>
    simp only [set_production_flags, List.map_cons, List.countP_cons] at ih ⊢
    by_cases h : a.version = ver <;> simp [h, ih]

theorem flag_true_version {line : List ModelVersion} {ver : Version}
    {r : ModelVersion} (h : r ∈ set_production_flags line ver)
    (hp : r.is_production = true) : r.version = ver := by
  rcases List.mem_map.mp h with ⟨x, hx, rfl⟩
  by_cases hv : x.version = ver
  · simp [hv]
  · simp [hv] at hp

theorem mem_flags_version {line : List ModelVersion} {ver : Version}
    {r : ModelVersion} (h : r ∈ set_production_flags line ver) :
    ∃ x ∈ line, x.version = r.version := by
  rcases List.mem_map.mp h with ⟨x, hx, rfl⟩
  exact ⟨x, hx, (version_flag ver x).symm⟩

/-!
### The registry invariant over reachable states
-/

/-- At most one production record per model line, the production record's
version agrees with the production pointer, and each line is strictly
increasing in version order. -/
def Inv (reg : ModelRegistry) : Prop :=
  ∀ name line, dictGet name reg.models = some line →
    VersionsSorted line ∧
    line.countP (fun r => r.is_production) ≤ 1 ∧
    ∀ r ∈ line, r.is_production = true →
      dictGet name reg.current_production = some r.version

theorem inv_empty : Inv emptyRegistry := by
  intro name line h
  simp [emptyRegistry, dictGet] at h

theorem inv_register {reg : ModelRegistry} (h : Inv reg)
    (inp : RegisterInput) : Inv (register_model reg inp).1 := by
  intro name line hline
  simp only [register_model] at hline
  by_cases hn : name = inp.model_name
  · subst hn
    rw [dictGet_dictSet_self] at hline
    have hline2 := Option.some.inj hline
    cases hd : dictGet inp.model_name reg.models with
    | none =>
      rw [hd] at hline2
      simp only [Option.getD_none] at hline2
      subst hline2
      refine ⟨by simp [VersionsSorted], by simp [List.countP_cons], ?_⟩
      intro r hr hp
      simp at hr
      subst hr
      simp at hp
    | some l0 =>
      rw [hd] at hline2
      simp only [Option.getD_some] at hline2
      obtain ⟨hs, hc, hptr⟩ := h inp.model_name l0 hd
      subst hline2
      refine ⟨?_, ?_, ?_⟩
      · rw [VersionsSorted, List.pairwise_append]
        refine ⟨hs, by simp, ?_⟩
        intro a ha b hb
        simp at hb
        subst hb
        simp only [get_next_version, hd]
        cases hl : l0.getLast? with
        | none =>
          rw [List.getLast?_eq_none_iff] at hl
          subst hl
          simp at ha
        | some latest =>
          rcases pairwise_getLast hs hl a ha with rfl | hlt
          · exact vltb_bump a.version inp.bump
          · exact vltb_trans hlt (vltb_bump latest.version inp.bump)
      · rw [List.countP_append]
        simpa using hc
      · intro r hr hp
        rcases List.mem_append.mp hr with hr0 | hr1
        · exact hptr r hr0 hp
        · simp at hr1
          subst hr1
          simp at hp
  · rw [dictGet_dictSet_ne hn] at hline
    obtain ⟨hs, hc, hptr⟩ := h name line hline
    exact ⟨hs, hc, hptr⟩

theorem promote_eq_none {reg : ModelRegistry} {mn : String} {ver : Version}
    {now : String} (hd : dictGet mn reg.models = none) :
    promote_to_production reg mn ver now = (reg, .error (.modelNotFound mn)) := by
  simp only [promote_to_production, hd]

theorem promote_eq_found {reg : ModelRegistry} {mn : String} {ver : Version}
    {now : String} {line : List ModelVersion}
    (hd : dictGet mn reg.models = some line)
    (hf : (line.any fun v => v.version = ver) = true) :
    promote_to_production reg mn ver now =
      ({ reg with
          models := dictSet mn (set_production_flags line ver) reg.models
          current_production := dictSet mn ver reg.current_production
          last_updated := now },
       .ok ()) := by
  simp only [promote_to_production, hd]
  rw [if_pos hf]

theorem promote_eq_notfound {reg : ModelRegistry} {mn : String} {ver : Version}
    {now : String} {line : List ModelVersion}
    (hd : dictGet mn reg.models = some line)
    (hf : ¬((line.any fun v => v.version = ver) = true)) :
    promote_to_production reg mn ver now =
      ({ reg with models := dictSet mn (set_production_flags line ver) reg.models },
       .error (.versionNotFound ver)) := by
  simp only [promote_to_production, hd]
  rw [if_neg hf]

theorem inv_promote {reg : ModelRegistry} (h : Inv reg) (mn : String)
    (ver : Version) (now : String) :
    Inv (promote_to_production reg mn ver now).1 := by
  cases hd : dictGet mn reg.models with
  | none =>
    rw [promote_eq_none hd]
    exact h
  | some line =>
    obtain ⟨hs, hc, hptr⟩ := h mn line hd
    by_cases hf : (line.any fun v => v.version = ver) = true
    · rw [promote_eq_found hd hf]
      intro name l2 hl2
      have hl2b : dictGet name (dictSet mn (set_production_flags line ver) reg.models) =
          some l2 := hl2
      by_cases hn : name = mn
      · subst hn
        rw [dictGet_dictSet_self] at hl2b
        have hl3 := Option.some.inj hl2b
        subst hl3
        refine ⟨sorted_set_production_flags hs ver, ?_, ?_⟩
        · rw [countP_set_production_flags]
          exact countP_version_le_one hs ver
        · intro r hr hp
          show dictGet name (dictSet name ver reg.current_production) = some r.version
          rw [dictGet_dictSet_self, flag_true_version hr hp]
      · rw [dictGet_dictSet_ne hn] at hl2b
        obtain ⟨hs2, hc2, hptr2⟩ := h name l2 hl2b
        refine ⟨hs2, hc2, ?_⟩
        intro r hr hp
        show dictGet name (dictSet mn ver reg.current_production) = some r.version
        rw [dictGet_dictSet_ne hn]
        exact hptr2 r hr hp
    · rw [promote_eq_notfound hd hf]
      intro name l2 hl2
      have hl2b : dictGet name (dictSet mn (set_production_flags line ver) reg.models) =
          some l2 := hl2
      by_cases hn : name = mn
      · subst hn
        rw [dictGet_dictSet_self] at hl2b
        have hl3 := Option.some.inj hl2b
        subst hl3
        have hnone : ∀ x ∈ line, ¬(x.version = ver) := by
          simpa using hf
        refine ⟨sorted_set_production_flags hs ver, ?_, ?_⟩
        · rw [countP_set_production_flags, List.countP_eq_zero.mpr]
          · exact Nat.zero_le 1
          · intro r hr
            simpa using hnone r hr
        · intro r hr hp
          exfalso
          obtain ⟨x, hx, hxv⟩ := mem_flags_version hr
          exact hnone x hx (by rw [hxv, flag_true_version hr hp])
      · rw [dictGet_dictSet_ne hn] at hl2b
        obtain ⟨hs2, hc2, hptr2⟩ := h name l2 hl2b
        refine ⟨hs2, hc2, ?_⟩
        intro r hr hp
        show dictGet name reg.current_production = some r.version
        exact hptr2 r hr hp

theorem inv_applyOp {reg : ModelRegistry} (h : Inv reg) (op : RegOp) :
    Inv (applyOp reg op) := by
  cases op with
  | register inp => exact inv_register h inp
  | promote name v now => exact inv_promote h name v now

theorem inv_runOps (ops : List RegOp) : Inv (runOps ops) := by
  rw [runOps]
  have hgen : ∀ r : ModelRegistry, Inv r → Inv (ops.foldl applyOp r) := by
    induction ops with
    | nil => intro r hr; exact hr
    | cons op t ih =>
      intro r hr
      exact ih (applyOp r op) (inv_applyOp hr op)
  exact hgen emptyRegistry inv_empty

/-!
### Claim C1 — at most one production record, agreeing with the pointer
-/

/-- C1: after any sequence of `register_model` / `promote_to_production`
calls, each model line contains at most one record with
`is_production = true`, and any such record's version equals the
registry's production pointer for that model name. -/
theorem at_most_one_production (ops : List RegOp) (name : String)
    (line : List ModelVersion)
    (hline : dictGet name (runOps ops).models = some line) :
    line.countP (fun r => r.is_production) ≤ 1 ∧
      ∀ r ∈ line, r.is_production = true →
        dictGet name (runOps ops).current_production = some r.version := by
  obtain ⟨_, hc, hp⟩ := inv_runOps ops name line hline
  exact ⟨hc, hp⟩

/-- Witness for C1 on the end-to-end scenario: after three registrations
and a promotion of `1.0.1`, the promoted record agrees with the pointer. -/
theorem at_most_one_production_witness :
    List.countP (fun r => r.is_production) demoLine ≤ 1 ∧
      dictGet "risk_scorer" (runOps demoOps).current_production =
        some ⟨1, 0, 1⟩ :=
  ⟨(at_most_one_production demoOps "risk_scorer" demoLine (by decide)).1,
   (at_most_one_production demoOps "risk_scorer" demoLine (by decide)).2
     demoProdRecord (by decide) (by decide)⟩

/-!
### Claim C3 — version allocation and monotonicity
-/

/-- C3: `_get_next_version` returns `1.0.0` on an absent or empty model
line regardless of bump kind; otherwise it bumps the latest record's
`(major, minor, patch)` triple, with any bump string other than
`"major"` / `"minor"` treated as a patch bump; every reachable model
line's version sequence is strictly increasing under triple comparison;
and a patch bump after `1.2.3` yields `1.2.4`. -/
theorem next_version_spec :
    (∀ (reg : ModelRegistry) (name bump : String),
        dictGet name reg.models = none →
        get_next_version reg name bump = ⟨1, 0, 0⟩) ∧
    (∀ (reg : ModelRegistry) (name bump : String),
        dictGet name reg.models = some [] →
        get_next_version reg name bump = ⟨1, 0, 0⟩) ∧
    (∀ (reg : ModelRegistry) (name : String) (line : List ModelVersion)
        (latest : ModelVersion),
        dictGet name reg.models = some line → line.getLast? = some latest →
        get_next_version reg name "major" =
            ⟨latest.version.major + 1, 0, 0⟩ ∧
          get_next_version reg name "minor" =
            ⟨latest.version.major, latest.version.minor + 1, 0⟩ ∧
          ∀ bump, bump ≠ "major" → bump ≠ "minor" →
            get_next_version reg name bump =
              ⟨latest.version.major, latest.version.minor,
               latest.version.patch + 1⟩) ∧
    (∀ (ops : List RegOp) (name : String),
        List.Chain' (fun a b => vltb a b = true)
          ((lineOf (runOps ops) name).map (fun r => r.version))) ∧
    (∀ (reg : ModelRegistry) (name : String) (line : List ModelVersion)
        (latest : ModelVersion),
        dictGet name reg.models = some line → line.getLast? = some latest →
        latest.version = ⟨1, 2, 3⟩ →
        get_next_version reg name "patch" = ⟨1, 2, 4⟩) := by
  refine ⟨?_, ?_, ?_, ?_, ?_⟩
  · intro reg name bump hd
    simp [get_next_version, hd]
  · intro reg name bump hd
    simp [get_next_version, hd]
  · intro reg name line latest hd hl
    refine ⟨?_, ?_, ?_⟩
    · simp [get_next_version, hd, hl, bumpVersion]
    · simp [get_next_version, hd, hl, bumpVersion]
    · intro bump h1 h2
      simp [get_next_version, hd, hl, bumpVersion, h1, h2]
  · intro ops name
    cases hd : dictGet name (runOps ops).models with
    | none => simp [lineOf, hd]
    | some line =>
      obtain ⟨hs, _, _⟩ := inv_runOps ops name line hd
      have hp : List.Pairwise (fun a b => vltb a b = true)
          (line.map fun r => r.version) :=
        List.pairwise_map.mpr hs
      simpa [lineOf, hd] using hp.chain'
  · intro reg name line latest hd hl hv
    simp [get_next_version, hd, hl, bumpVersion, hv]

/-- Witness for C3 at the end-to-end registry: after `demoOps` the latest
`"risk_scorer"` record is `1.0.2`, a major bump yields `2.0.0`, a minor
bump `1.1.0`, the default bump `1.0.3`, and the stored version sequence
is strictly increasing. -/
theorem next_version_spec_witness :
    get_next_version (runOps demoOps) "risk_scorer" "major" = ⟨2, 0, 0⟩ ∧
    get_next_version (runOps demoOps) "risk_scorer" "minor" = ⟨1, 1, 0⟩ ∧
    get_next_version (runOps demoOps) "risk_scorer" "patch" = ⟨1, 0, 3⟩ ∧
    List.Chain' (fun a b => vltb a b = true)
      (demoLine.map (fun r => r.version)) :=
  have h3 := next_version_spec.2.2.1 (runOps demoOps) "risk_scorer" demoLine
    { demoProdRecord with
        version := ⟨1, 0, 2⟩
        created_at := "t3"
        is_production := false }
    (by decide) (by decide)
  ⟨h3.1, h3.2.1,
   h3.2.2 "patch" (by decide) (by decide),
   next_version_spec.2.2.2.1 demoOps "risk_scorer"⟩

/-!
### Claim C4 — promoting a missing version fails, pointer untouched
-/

/-- C4: promoting a version that does not occur in the model's line
fails with the version-not-found error, and the production pointer for
that model name is left unchanged. -/
theorem promote_missing_version (reg : ModelRegistry) (mn : String)
    (line : List ModelVersion) (ver : Version) (now : String)
    (hd : dictGet mn reg.models = some line)
    (habs : ∀ r ∈ line, r.version ≠ ver) :
    (promote_to_production reg mn ver now).2 =
        .error (.versionNotFound ver) ∧
      dictGet mn (promote_to_production reg mn ver now).1.current_production =
        dictGet mn reg.current_production := by
  have hf : ¬((line.any fun v => v.version = ver) = true) := by
    intro hcon
    rcases List.any_eq_true.mp hcon with ⟨x, hx, he⟩
    exact habs x hx (by simpa using he)
  rw [promote_eq_notfound hd hf]
  exact ⟨rfl, rfl⟩

/-- Witness for C4: promoting `9.9.9` on the scenario registry fails
with the version-not-found error and leaves the pointer at `1.0.1`. -/
theorem promote_missing_version_witness :
    (promote_to_production (runOps demoOps) "risk_scorer" ⟨9, 9, 9⟩ "t9").2 =
        .error (.versionNotFound ⟨9, 9, 9⟩) ∧
      dictGet "risk_scorer"
          (promote_to_production (runOps demoOps) "risk_scorer" ⟨9, 9, 9⟩
            "t9").1.current_production =
        dictGet "risk_scorer" (runOps demoOps).current_production :=
  promote_missing_version (runOps demoOps) "risk_scorer" demoLine ⟨9, 9, 9⟩
    "t9" (by decide) (by decide)

/-!
### Claim C5 — retention protects the production record
-/

theorem mem_foldl_erase {l rem : List ModelVersion} {a : ModelVersion}
    (ha : a ∈ l) (hne : ∀ x ∈ rem, a ≠ x) :
    a ∈ rem.foldl (fun acc v => acc.erase v) l := by
  induction rem generalizing l with
  | nil => exact ha
  | cons b t ih =>
    have hab : a ≠ b := hne b (List.mem_cons_self b t)
    exact ih ((List.mem_erase_of_ne hab).mpr ha)
      (fun x hx => hne x (List.mem_cons_of_mem b hx))

theorem production_record_survives_cleanup {reg : ModelRegistry}
    {mn : String} {line : List ModelVersion} {pv : Version}
    {r : ModelVersion} (keepN : Nat) (now : String)
    (hd : dictGet mn reg.models = some line)
    (hpv : dictGet mn reg.current_production = some pv)
    (hr : r ∈ line) (hv : r.version = pv) :
    r ∈ lineOf (cleanup_old_versions reg mn keepN true now).1 mn := by
  simp only [cleanup_old_versions, hd, hpv, lineOf]
  rw [dictGet_dictSet_self]
  simp only [Option.getD_some]
  apply mem_foldl_erase hr
  intro x hx
  have hxv : x.version ≠ pv := by
    simpa using List.of_mem_filter hx
  intro he
  rw [he] at hv
  exact hxv hv

/-- C5: when a promoted production version exists and `keep_production`
is set, cleanup never removes the record whose version matches the
production pointer; and on the end-to-end scenario (versions `1.0.0`,
`1.0.1`, `1.0.2` registered, `1.0.1` promoted) a cleanup with
`keep_last_n = 1` removes exactly `1.0.0`, retains `{1.0.1, 1.0.2}` and
returns `1`. -/
theorem cleanup_retention_spec :
    (∀ (reg : ModelRegistry) (mn : String) (line : List ModelVersion)
        (pv : Version) (r : ModelVersion) (keepN : Nat) (now : String),
        dictGet mn reg.models = some line →
        dictGet mn reg.current_production = some pv →
        r ∈ line → r.version = pv →
        r ∈ lineOf (cleanup_old_versions reg mn keepN true now).1 mn) ∧
    (cleanup_old_versions (runOps demoOps) "risk_scorer" 1 true "t5").2 = 1 ∧
    (lineOf (cleanup_old_versions (runOps demoOps) "risk_scorer" 1 true
          "t5").1 "risk_scorer").map (fun r => r.version) =
      [⟨1, 0, 1⟩, ⟨1, 0, 2⟩] := by
  refine ⟨?_, by decide, by decide⟩
  intro reg mn line pv r keepN now hd hpv hr hv
  exact production_record_survives_cleanup keepN now hd hpv hr hv

/-- Witness for C5: on the scenario registry the promoted `1.0.1` record
survives a cleanup keeping only the most recent record. -/
theorem cleanup_retention_spec_witness :
    demoProdRecord ∈
      lineOf (cleanup_old_versions (runOps demoOps) "risk_scorer" 1 true
        "t5").1 "risk_scorer" :=
  cleanup_retention_spec.1 (runOps demoOps) "risk_scorer" demoLine ⟨1, 0, 1⟩
    demoProdRecord 1 "t5" (by decide) (by decide) (by decide) (by decide)

/-!
### Claim C6 — lineage export: complete records, but not complete fields
-/

/-- C6 counterexample: two registries whose only difference is a
record's `model_type` field produce identical lineage documents, so the
export does not contain every field of every `VersionRecord`
(`model_type`, `feature_count`, `training_duration_seconds`, the file
paths and `tags` are all dropped by `export_lineage`). -/
theorem export_lineage_drops_fields :
    oneModelRegistry "anomaly" ≠ oneModelRegistry "risk" ∧
      export_lineage (oneModelRegistry "anomaly") "m" "t9" =
        export_lineage (oneModelRegistry "risk") "m" "t9" := by
  refine ⟨by decide, rfl⟩

/-- C6 amended: `export_lineage` fails with the model-not-found error on
a model with no line; on a model with a line it emits one history entry
per record, in creation order with no omission or reordering of records,
each entry carrying the nine fields of `lineage_entry` (not every record
field), plus the current production pointer and the generation
timestamp. -/
theorem export_lineage_spec (reg : ModelRegistry) (mn now : String) :
    (dictGet mn reg.models = none →
        export_lineage reg mn now = .error (.modelNotFound mn)) ∧
    (∀ line, dictGet mn reg.models = some line →
        export_lineage reg mn now =
          .ok { model_name := mn
                generated_at := now
                total_versions := line.length
                current_production := dictGet mn reg.current_production
                version_history := line.map lineage_entry }) := by
  constructor
  · intro h
    simp [export_lineage, h]
  · intro line h
    simp [export_lineage, h]

/-- Witness for C6 amended: the scenario registry's lineage lists its
three records in creation order, and an unknown model name fails. -/
theorem export_lineage_spec_witness :
    export_lineage (runOps demoOps) "risk_scorer" "t6" =
        .ok { model_name := "risk_scorer"
              generated_at := "t6"
              total_versions := demoLine.length
              current_production :=
                dictGet "risk_scorer" (runOps demoOps).current_production
              version_history := demoLine.map lineage_entry } ∧
      export_lineage (runOps demoOps) "absent_model" "t6" =
        .error (.modelNotFound "absent_model") :=
  ⟨(export_lineage_spec (runOps demoOps) "risk_scorer" "t6").2 demoLine
     (by decide),
   (export_lineage_spec (runOps demoOps) "absent_model" "t6").1 (by decide)⟩

/-!
### Claim C7 — loading a missing or malformed registry document
-/

/-- C7 counterexample: `_load_registry` on a malformed backing document
does not surface a `RegistryCorrupt` failure — the exception is caught,
a warning is logged, and a fresh empty registry is returned, exactly as
for a missing document. -/
theorem load_registry_swallows_corruption :
    load_registry .malformed = .ok emptyRegistry ∧
      load_registry .malformed ≠ .error .registryCorrupt ∧
      load_registry .malformed = load_registry .absent := by
  refine ⟨rfl, fun h => Except.noConfusion h, rfl⟩

/-- C7 amended: `_load_registry` returns an empty registry when the
backing document is missing, and also returns an empty registry — after
catching the exception and logging a warning, surfacing nothing to the
caller — when the document is malformed; a well-formed document is
reconstructed as written. -/
theorem load_registry_spec :
    load_registry .absent = .ok emptyRegistry ∧
      load_registry .malformed = .ok emptyRegistry ∧
      ∀ reg, load_registry (.doc reg) = .ok reg :=
  ⟨rfl, rfl, fun _ => rfl⟩

/-!
### Claim C2 — commits are in-place rewrites, not atomic renames
-/

/-- C2 counterexample: `_save_registry`'s effect trace opens the
registry document with truncation and rewrites it in place — it writes
no temporary file and performs no rename — and a failure after the
truncating open but before the dump loses the pre-commit document: the
next load returns the empty registry instead of the pre-commit
registry. -/
theorem save_registry_not_atomic :
    save_registry_ops (oneModelRegistry "anomaly") "t2" =
        [.openTruncateRegistry,
         .writeRegistry { oneModelRegistry "anomaly" with last_updated := "t2" }] ∧
      (applyFsOps ⟨.doc (oneModelRegistry "anomaly"), .absent⟩
          ((save_registry_ops (oneModelRegistry "anomaly") "t2").take 1)).registry_doc =
        .malformed ∧
      load_registry
          (applyFsOps ⟨.doc (oneModelRegistry "anomaly"), .absent⟩
            ((save_registry_ops (oneModelRegistry "anomaly") "t2").take 1)).registry_doc =
        .ok emptyRegistry ∧
      load_registry
          (applyFsOps ⟨.doc (oneModelRegistry "anomaly"), .absent⟩
            ((save_registry_ops (oneModelRegistry "anomaly") "t2").take 1)).registry_doc ≠
        .ok (oneModelRegistry "anomaly") := by
  refine ⟨rfl, rfl, rfl, fun h => absurd (Except.ok.inj h) (by decide)⟩

/-- C2 amended: every commit truncates the registry document in place
and rewrites it (`open(file, 'w')` then `json.dump`); a complete commit
leaves the new document, but a failure between the truncating open and
the dump leaves a malformed document, after which a load returns the
empty registry — the pre-commit document is destroyed, unlike the
write-temp-then-rename discipline, whose only proper prefix leaves the
pre-commit document intact. -/
theorem save_registry_inplace (reg : ModelRegistry) (now : String)
    (st : FsState) (pre : ModelRegistry) :
    save_registry_ops reg now =
        [.openTruncateRegistry, .writeRegistry { reg with last_updated := now }] ∧
      (applyFsOps st (save_registry_ops reg now)).registry_doc =
        .doc { reg with last_updated := now } ∧
      (applyFsOps st ((save_registry_ops reg now).take 1)).registry_doc =
        .malformed ∧
      load_registry
          (applyFsOps st ((save_registry_ops reg now).take 1)).registry_doc =
        .ok emptyRegistry ∧
      (applyFsOps ⟨.doc pre, .absent⟩
          ((save_registry_ops_spec reg now).take 1)).registry_doc = .doc pre ∧
      (applyFsOps ⟨.doc pre, .absent⟩
          (save_registry_ops_spec reg now)).registry_doc =
        .doc { reg with last_updated := now } :=
  ⟨rfl, rfl, rfl, rfl, rfl, rfl⟩

/-!
### Claim C8 — cleanup on an absent model and cleanup with nothing to do
-/

/-- C8 counterexample: `cleanup_old_versions` on a model name absent
from the registry does not fail with a model-not-found error — it
returns `0` with the registry untouched, the same count a present model
with nothing to remove yields (the source has no raise path at all). -/
theorem cleanup_missing_model_returns_zero :
    cleanup_old_versions emptyRegistry "x" 5 true "t9" =
        (emptyRegistry, 0) ∧
      (cleanup_old_versions (oneModelRegistry "anomaly") "m" 5 true
          "t9").2 = 0 := by
  refine ⟨rfl, rfl⟩

/-- C8 amended: cleanup on an absent model name returns `0` and leaves
the registry unchanged (not an error), and cleanup on a present model
name for which no record qualifies for removal — every record of the
line lies in the `keep_last_n` window (all of them when
`keep_last_n = 0`, Python's `versions[-0:]`) or is protected by the
production pointer under `keep_production` — also returns `0`, keeping
the line intact. -/
theorem cleanup_spec :
    (∀ (reg : ModelRegistry) (mn : String) (keepN : Nat) (kp : Bool)
        (now : String),
        dictGet mn reg.models = none →
        cleanup_old_versions reg mn keepN kp now = (reg, 0)) ∧
    (∀ (reg : ModelRegistry) (mn : String) (line : List ModelVersion)
        (keepN : Nat) (kp : Bool) (now : String),
        dictGet mn reg.models = some line →
        (∀ v ∈ line,
            v ∈ (if keepN = 0 then line
                 else line.drop (line.length - keepN)) ∨
              (kp = true ∧
                dictGet mn reg.current_production = some v.version)) →
        (cleanup_old_versions reg mn keepN kp now).2 = 0 ∧
          dictGet mn (cleanup_old_versions reg mn keepN kp now).1.models =
            some line) := by
  constructor
  · intro reg mn keepN kp now hd
    simp only [cleanup_old_versions, hd]
  · intro reg mn line keepN kp now hd hq
    cases kp with
    | false =>
      have hnil : line.filter (fun v =>
          !((if keepN = 0 then line
             else line.drop (line.length - keepN)).contains v)) = [] := by
        rw [List.filter_eq_nil_iff]
        intro a ha
        rcases hq a ha with hin | ⟨hkp, _⟩
        · simp [hin]
        · exact absurd hkp (by simp)
      simp only [cleanup_old_versions, hd, hnil]
      simp [dictGet_dictSet_self]
    | true =>
      cases hpv : dictGet mn reg.current_production with
      | none =>
        have hnil : line.filter (fun v =>
            !((if keepN = 0 then line
               else line.drop (line.length - keepN)).contains v)) = [] := by
          rw [List.filter_eq_nil_iff]
          intro a ha
          rcases hq a ha with hin | ⟨_, hpt⟩
          · simp [hin]
          · rw [hpv] at hpt
            exact absurd hpt (by simp)
        simp only [cleanup_old_versions, hd, hpv, hnil]
        simp [dictGet_dictSet_self]
      | some pv =>
        have hnil2 : (line.filter (fun v =>
            !((if keepN = 0 then line
               else line.drop (line.length - keepN)).contains v))).filter
              (fun (v : ModelVersion) => v.version ≠ pv) = [] := by
          rw [List.filter_eq_nil_iff]
          intro a ha
          have hmem := List.mem_of_mem_filter ha
          have hout : a ∉ (if keepN = 0 then line
              else line.drop (line.length - keepN)) := by
            simpa using List.of_mem_filter ha
          rcases hq a hmem with hin | ⟨_, hpt⟩
          · exact absurd hin hout
          · rw [hpv] at hpt
            have := Option.some.inj hpt
            simp [this]
        simp only [cleanup_old_versions, hd, hpv, hnil2]
        simp [dictGet_dictSet_self]

/-- Witness for C8 amended, at both review-relevant inputs: with two
registered versions and the older `1.0.0` promoted, a cleanup keeping
only the most recent record removes nothing (the out-of-window record is
production-protected), and a cleanup with `keep_last_n = 0` (everything
kept) likewise removes nothing. -/
theorem cleanup_spec_witness :
    ((cleanup_old_versions (runOps protectOps) "risk_scorer" 1 true
          "t5").2 = 0 ∧
        dictGet "risk_scorer"
            (cleanup_old_versions (runOps protectOps) "risk_scorer" 1 true
              "t5").1.models =
          some (lineOf (runOps protectOps) "risk_scorer")) ∧
      ((cleanup_old_versions (runOps protectOps) "risk_scorer" 0 true
            "t5").2 = 0 ∧
        dictGet "risk_scorer"
            (cleanup_old_versions (runOps protectOps) "risk_scorer" 0 true
              "t5").1.models =
          some (lineOf (runOps protectOps) "risk_scorer")) :=
  ⟨cleanup_spec.2 (runOps protectOps) "risk_scorer"
     (lineOf (runOps protectOps) "risk_scorer") 1 true "t5" (by decide)
     (by decide),
   cleanup_spec.2 (runOps protectOps) "risk_scorer"
     (lineOf (runOps protectOps) "risk_scorer") 0 true "t5" (by decide)
     (by decide)⟩

/-!
### Claim C9 — no promotion yet: load falls back to the latest version
-/

theorem dictGet_eq_none_iff {α : Type} {k : String}
    {d : List (String × α)} : dictGet k d = none ↔ ∀ p ∈ d, p.1 ≠ k := by
  induction d with
  | nil => simp [dictGet]
  | cons p t ih =>
    by_cases h : p.1 = k
    · simp [dictGet, h]
    · simp [dictGet, h, ih]

/-- C9 counterexample: on a registry where model `"m"` exists but has no
production pointer entry, requesting the model with no explicit version
does not fail — `load_model` silently falls back to the latest record
and succeeds. -/
theorem load_model_no_pointer_succeeds :
    dictGet "m" (oneModelRegistry "anomaly").current_production = none ∧
      load_model (oneModelRegistry "anomaly") "m" none =
        .ok (oneRecord "anomaly") := by
  refine ⟨rfl, rfl⟩

/-- C9 amended: when a model exists but no promotion has occurred (no
production pointer entry), `load_model` with no explicit version
resolves to the line's last record and succeeds with a record of that
version — there is no no-production-model failure — and the model is
simply absent from `get_production_models`' result. -/
theorem load_model_fallback_spec (reg : ModelRegistry) (mn : String)
    (line : List ModelVersion) (r : ModelVersion)
    (hd : dictGet mn reg.models = some line)
    (hnp : dictGet mn reg.current_production = none)
    (hl : line.getLast? = some r) :
    (∃ info, load_model reg mn none = .ok info ∧
        info.version = r.version) ∧
      dictGet mn (get_production_models reg) = none := by
  constructor
  · simp only [load_model, hd, hnp, hl]
    cases hfind : line.find? (fun x => x.version = r.version) with
    | none =>
      exfalso
      have hmem := List.mem_of_mem_getLast? hl
      have := List.find?_eq_none.mp hfind r hmem
      simp at this
    | some info =>
      refine ⟨info, rfl, ?_⟩
      have := List.find?_some hfind
      simpa using this
  · rw [dictGet_eq_none_iff]
    intro p hp
    rcases List.mem_filterMap.mp hp with ⟨q, hq, hqe⟩
    have hq1 : p.1 = q.1 := by
      cases hlm : load_model reg q.1 (some q.2) with
      | ok info =>
        rw [hlm] at hqe
        simp at hqe
        rw [← hqe]
      | error e =>
        rw [hlm] at hqe
        simp at hqe
    rw [hq1]
    exact dictGet_eq_none_iff.mp hnp q hq

/-- Witness for C9 amended: a fresh one-model registry with no promotion
loads its only record on a version-less request. -/
theorem load_model_fallback_spec_witness :
    (∃ info, load_model (oneModelRegistry "risk") "m" none = .ok info ∧
        info.version = (oneRecord "risk").version) ∧
      dictGet "m" (get_production_models (oneModelRegistry "risk")) =
        none :=
  load_model_fallback_spec (oneModelRegistry "risk") "m"
    [oneRecord "risk"] (oneRecord "risk") (by decide) rfl (by decide)

/-!
### Claim C10 — comparing an existing version with itself fails
-/

theorem compare_fold_snd_none (line : List ModelVersion) (v : Version) :
    ∀ s : Option ModelVersion,
      (line.foldl
        (fun (p : Option ModelVersion × Option ModelVersion) x =>
          if x.version = v then (some x, p.2)
          else if x.version = v then (p.1, some x) else p)
        (s, none)).2 = none := by
  induction line with
  | nil => intro s; rfl
  | cons a t ih =>
    intro s
    simp only [List.foldl_cons]
    by_cases h : a.version = v
    · simpa [h] using ih (some a)
    · simpa [h] using ih s

/-- C10: for any version that exists in a model's line, `compare_versions`
of that version with itself fails with the versions-not-found error: the
loop's `elif` can never bind the second slot when both requested
versions are equal, because binding it requires matching `version2`
while not matching `version1`. -/
theorem compare_versions_self (daysBetween : String → String → Int)
    (reg : ModelRegistry) (mn : String) (line : List ModelVersion)
    (v : Version) (r : ModelVersion)
    (hd : dictGet mn reg.models = some line) (_hr : r ∈ line)
    (_hv : r.version = v) :
    compare_versions daysBetween reg mn v v =
      .error .bothVersionsNotFound := by
  simp only [compare_versions, hd, Option.getD_some]
  rcases hpair : line.foldl
      (fun (p : Option ModelVersion × Option ModelVersion) x =>
        if x.version = v then (some x, p.2)
        else if x.version = v then (p.1, some x) else p)
      (none, none) with ⟨p1, p2⟩
  have hp2 : p2 = none := by
    have := compare_fold_snd_none line v none
    rw [hpair] at this
    exact this
  subst hp2
  rw [hpair]
  cases p1 <;> rfl

/-- Witness for C10: comparing the existing scenario version `1.0.1`
with itself fails despite the version being present. -/
theorem compare_versions_self_witness :
    compare_versions (fun _ _ => 0) (runOps demoOps) "risk_scorer"
        ⟨1, 0, 1⟩ ⟨1, 0, 1⟩ = .error .bothVersionsNotFound :=
  compare_versions_self (fun _ _ => 0) (runOps demoOps) "risk_scorer"
    demoLine ⟨1, 0, 1⟩ demoProdRecord (by decide) (by decide) (by decide)

end GatiVersioning
